import Mathlib

/-!
Shallow embedding of `src/descriptor/key_map.rs` from rust-miniscript: the
`KeyMap` type (the public-key → secret-key side table built while parsing a
descriptor that embeds secrets) together with its storage operations
(`new`, `insert`, `get`, `len`, `is_empty`, `extend`, iteration) and the
`GetKey` resolution algorithm (`get_key`).

External collaborators — secp256k1 point arithmetic, the BIP-32 derivation
engine (`Xpriv::derive_priv`, the raw-key library's `GetKey` impl for
`Xpriv`), and the repository's own `DescriptorSecretKey::to_public` (which
lives outside the embedded file) — are modelled at their interface boundary
by an explicit `Engine` record that is threaded through every operation,
mirroring how the Rust code threads `secp: &Secp256k1<C>`.

The std `BTreeMap<DescriptorPublicKey, DescriptorSecretKey>` is modelled as
a key-unique association list; the canonical sort order over serialized
public keys is abstracted away (iteration order is the list order), which
none of the properties below depends on.

Raw key material (secp256k1 points and scalars, chain codes) is abstracted
to opaque natural-number values with decidable equality; the resolution
algorithm only ever compares such values for equality and hands them to the
external engine.
-/

/-- Network tag carried by raw private keys and extended keys
(`bitcoin::NetworkKind`). -/
inductive NetworkKind
  | main
  | test
deriving DecidableEq

/-- An abstract secp256k1 public key (curve point), opaque to the key map. -/
abbrev SecpPublicKey := Nat

/-- An abstract secp256k1 secret key (scalar), opaque to the key map. -/
abbrev SecpSecretKey := Nat

/-- An abstract x-only public key (`bitcoin::XOnlyPublicKey`). -/
abbrev XOnlyPublicKey := Nat

/-- An abstract BIP-32 chain code, opaque to the key map. -/
abbrev ChainCode := Nat

/-- `bitcoin::PublicKey`: a secp256k1 point plus its compressedness flag.
Equality (used by the `Single`-entry match in `get_key`) compares both
fields, while the `XPub` match compares only the `inner` point. -/
structure PublicKey where
  compressed : Bool
  inner : SecpPublicKey
deriving DecidableEq

/-- `bitcoin::PrivateKey`: a secp256k1 scalar plus compressedness and the
network tag. `PrivateKey::new` in the raw-key library sets
`compressed := true`. -/
structure PrivateKey where
  compressed : Bool
  network : NetworkKind
  inner : SecpSecretKey
deriving DecidableEq

/-- `bip32::Xpriv`, restricted to the fields the key map reads: the network
tag, the raw private key, and an opaque chain code that keeps distinct
extended keys distinct. -/
structure Xpriv where
  network : NetworkKind
  private_key : SecpSecretKey
  chain_code : ChainCode
deriving DecidableEq

/-- `bip32::Xpub`, restricted to the fields the key map reads. -/
structure Xpub where
  network : NetworkKind
  public_key : SecpPublicKey
  chain_code : ChainCode
deriving DecidableEq

/-- `Xpriv::to_priv`: the raw private key of an extended private key, with
`compressed := true` and the extended key's network tag. -/
def Xpriv.to_priv (x : Xpriv) : PrivateKey :=
  { compressed := true, network := x.network, inner := x.private_key }

/-- A BIP-32 child-derivation step (hardened-ness folded into the value). -/
abbrev ChildNumber := Nat

/-- `bip32::DerivationPath`: an ordered list of child steps. -/
abbrev DerivationPath := List ChildNumber

/-- `bip32::Fingerprint`: the short identifier of a master key. -/
abbrev Fingerprint := Nat

/-- `bip32::KeySource`: a master fingerprint plus a full derivation path. -/
abbrev KeySource := Fingerprint × DerivationPath

/-- `psbt::KeyRequest` (rust-bitcoin v0.32): ask for the secret of a raw
public key, or for the secret at a fingerprint + derivation path. -/
inductive KeyRequest
  | pubkey (request : PublicKey)
  | bip32 (source : KeySource)
deriving DecidableEq

/-- Wildcard marker of a descriptor extended key. The key map never
inspects it; it is carried so entries that differ only here stay distinct. -/
inductive Wildcard
  | none
  | unhardened
  | hardened
deriving DecidableEq

/-- `SinglePubKey`: the raw key inside a `Single` public entry, either a
full point (with parity) or an x-only key. -/
inductive SinglePubKey
  | fullKey (k : PublicKey)
  | xonly (k : XOnlyPublicKey)
deriving DecidableEq

/-- `SinglePub`: a single public key with optional key origin. -/
structure SinglePub where
  origin : Option KeySource
  key : SinglePubKey
deriving DecidableEq

/-- `SinglePriv`: a single private key with optional key origin. -/
structure SinglePriv where
  origin : Option KeySource
  key : PrivateKey
deriving DecidableEq

/-- `DescriptorXKey<K>`: an extended key plus origin, a further derivation
path, and a wildcard marker. -/
structure DescriptorXKey (K : Type) where
  origin : Option KeySource
  xkey : K
  derivation_path : DerivationPath
  wildcard : Wildcard
deriving DecidableEq

/-- `DescriptorMultiXKey<K>`: an extended key shared across several
derivation paths at once. -/
structure DescriptorMultiXKey (K : Type) where
  origin : Option KeySource
  xkey : K
  derivation_paths : List DerivationPath
  wildcard : Wildcard
deriving DecidableEq

/-- `DescriptorPublicKey`: the key type of the map. -/
inductive DescriptorPublicKey
  | single (s : SinglePub)
  | xpub (x : DescriptorXKey Xpub)
  | multiXpub (x : DescriptorMultiXKey Xpub)
deriving DecidableEq

/-- `DescriptorSecretKey`: the value type of the map. -/
inductive DescriptorSecretKey
  | single (s : SinglePriv)
  | xprv (x : DescriptorXKey Xpriv)
  | multiXprv (x : DescriptorMultiXKey Xpriv)
deriving DecidableEq

/-- The error `insert` propagates from `DescriptorSecretKey::to_public`.
The spec's error taxonomy names exactly one failure mode here: the secret's
bytes do not form a valid key under the curve. -/
inductive DescriptorKeyParseError
  | keyDerivation
deriving DecidableEq

/-- `psbt::GetKeyError`: the error type of the `GetKey` trait. The key
map's `get_key` never constructs one (it always returns `Ok`), but the
external engine's `Xpriv` impl can. -/
inductive GetKeyError
  | notSupported
deriving DecidableEq

/-- Modelled from the spec: the external collaborators of §6 bundled into
one record, plus the repository's `DescriptorSecretKey::to_public` (code of
this repository that is not part of the embedded file). Each field is an
arbitrary function, so every theorem below holds for any implementation of
the boundary:
* `to_public` — derives the public counterpart of a secret entry (point
  multiplication for raw keys, the embedded public half for HD keys),
  failing with a key-derivation error on malformed input;
* `derive_priv` — `Xpriv::derive_priv`: HD child derivation along a path,
  which can fail;
* `fingerprint` — `Xpriv::fingerprint`: the master-key identifier;
* `xpriv_get_key` — the raw-key library's combined fingerprint/path
  matching-and-derivation routine (`GetKey` for `Xpriv`), to which the map
  delegates by-key-source requests. -/
structure Engine where
  to_public : DescriptorSecretKey → Except DescriptorKeyParseError DescriptorPublicKey
  derive_priv : Xpriv → DerivationPath → Option Xpriv
  fingerprint : Xpriv → Fingerprint
  xpriv_get_key : Xpriv → KeyRequest → Except GetKeyError (Option PrivateKey)

/-- Modelled from the spec: the boundary law of the external HD engine's
combined matching-and-derivation routine (spec §6(b)): a fingerprint+path
request presented to an extended private key whose fingerprint it names is
a match, and the reported key is the child privately derived along the
path. -/
def Engine.FollowsHdSpec (E : Engine) : Prop :=
  ∀ (x : Xpriv) (fp : Fingerprint) (path : DerivationPath) (child : Xpriv),
    fp = E.fingerprint x →
    E.derive_priv x path = some child →
    E.xpriv_get_key x (KeyRequest.bip32 (fp, path)) = Except.ok (some child.to_priv)

/-- One stored (public, secret) pair. -/
abbrev Entry := DescriptorPublicKey × DescriptorSecretKey

/-- `BTreeMap::get`, on the association-list model: first pair whose key
equals the request. -/
def btree_get (m : List Entry) (k : DescriptorPublicKey) : Option DescriptorSecretKey :=
  match m with
  | [] => none
  | (k', v) :: rest => if k' = k then some v else btree_get rest k

/-- `BTreeMap::contains_key` on the association-list model. -/
def btree_contains_key (m : List Entry) (k : DescriptorPublicKey) : Bool :=
  match m with
  | [] => false
  | (k', _) :: rest => k' = k || btree_contains_key rest k

/-- `BTreeMap::insert` on the association-list model: replaces the entry at
an already-present key, otherwise adds the pair. -/
def btree_insert (m : List Entry) (k : DescriptorPublicKey) (v : DescriptorSecretKey) :
    List Entry :=
  match m with
  | [] => [(k, v)]
  | (k', v') :: rest => if k' = k then (k, v) :: rest else (k', v') :: btree_insert rest k v

/-- `BTreeMap::extend`: `BTreeMap::insert` for each pair, in the input's
iteration order. -/
def btree_extend (m : List Entry) (pairs : List Entry) : List Entry :=
  match pairs with
  | [] => m
  | (k, v) :: rest => btree_extend (btree_insert m k v) rest

/-- `KeyMap`: the map of public key to secret key. -/
structure KeyMap where
  map : List Entry
deriving DecidableEq

/-- `KeyMap::new`. -/
def KeyMap.new : KeyMap := ⟨[]⟩

/-- `KeyMap::insert`: derive the public counterpart via
`DescriptorSecretKey::to_public`; store the pair only when the public key
is not yet present; always return the derived public key. The returned
`KeyMap` is the post-state of the `&mut self` receiver (unchanged when
`to_public` fails or the key is already present). -/
def KeyMap.insert (m : KeyMap) (E : Engine) (sk : DescriptorSecretKey) :
    Except DescriptorKeyParseError DescriptorPublicKey × KeyMap :=
  match E.to_public sk with
  | Except.error e => (Except.error e, m)
  | Except.ok pk =>
    if btree_contains_key m.map pk then (Except.ok pk, m)
    else (Except.ok pk, ⟨btree_insert m.map pk sk⟩)

/-- `KeyMap::get`. -/
def KeyMap.get (m : KeyMap) (pk : DescriptorPublicKey) : Option DescriptorSecretKey :=
  btree_get m.map pk

/-- `KeyMap::len`. -/
def KeyMap.len (m : KeyMap) : Nat := m.map.length

/-- `KeyMap::is_empty`. -/
def KeyMap.is_empty (m : KeyMap) : Bool := m.map.isEmpty

/-- `IntoIterator for KeyMap`: yields the stored pairs in map order. -/
def KeyMap.into_iter (m : KeyMap) : List Entry := m.map

/-- `Extend for KeyMap`: delegates to `BTreeMap::extend`. -/
def KeyMap.extend (m : KeyMap) (pairs : List Entry) : KeyMap :=
  ⟨btree_extend m.map pairs⟩

/-- The message of each `unreachable!` branch in `get_key`. -/
inductive FatalMsg
  | singleMapsToSingle
  | xprvMapsToXprv
  | multiXprvMapsToMultiXprv
deriving DecidableEq

/-- Outcome of Rust code that can abort via `unreachable!`: either the
fatal abort (with its message) or a value. -/
inductive FatalOr (α : Type)
  | fatal (msg : FatalMsg)
  | value (a : α)

/-- The body of the `find_map` closure in `get_key`: how one stored pair
answers one request. Variant mismatch between the stored public and secret
entries hits an `unreachable!` branch. -/
def getKeyEntry (E : Engine) (key_request : KeyRequest) (k : DescriptorPublicKey)
    (v : DescriptorSecretKey) : FatalOr (Option PrivateKey) :=
  match k with
  | DescriptorPublicKey.single pk =>
    match key_request with
    | KeyRequest.pubkey request =>
      match pk.key with
      | SinglePubKey.fullKey pk' =>
        if pk' = request then
          match v with
          | DescriptorSecretKey.single sk => FatalOr.value (some sk.key)
          | _ => FatalOr.fatal FatalMsg.singleMapsToSingle
        else
          FatalOr.value none
      | SinglePubKey.xonly _ => FatalOr.value none
    | _ => FatalOr.value none
  | DescriptorPublicKey.xpub xpub =>
    let pk := xpub.xkey.public_key
    match key_request with
    | KeyRequest.pubkey request =>
      if pk = request.inner then
        match v with
        | DescriptorSecretKey.xprv xpriv =>
          let xkey := xpriv.xkey
          match E.derive_priv xkey xpriv.derivation_path with
          | some child =>
            FatalOr.value (some { compressed := true, network := xkey.network,
                                  inner := child.private_key })
          | none => FatalOr.value none
        | _ => FatalOr.fatal FatalMsg.xprvMapsToXprv
      else
        FatalOr.value none
    | KeyRequest.bip32 _ =>
      match v with
      | DescriptorSecretKey.xprv xpriv =>
        match E.xpriv_get_key xpriv.xkey key_request with
        | Except.ok (some sk) => FatalOr.value (some sk)
        | _ => FatalOr.value none
      | _ => FatalOr.fatal FatalMsg.xprvMapsToXprv
  | DescriptorPublicKey.multiXpub xpub =>
    let pk := xpub.xkey.public_key
    match key_request with
    | KeyRequest.pubkey request =>
      if pk = request.inner then
        match v with
        | DescriptorSecretKey.multiXprv xpriv => FatalOr.value (some xpriv.xkey.to_priv)
        | _ => FatalOr.fatal FatalMsg.multiXprvMapsToMultiXprv
      else
        FatalOr.value none
    | KeyRequest.bip32 _ =>
      match v with
      | DescriptorSecretKey.multiXprv xpriv =>
        match E.xpriv_get_key xpriv.xkey key_request with
        | Except.ok (some sk) => FatalOr.value (some sk)
        | _ => FatalOr.value none
      | _ => FatalOr.fatal FatalMsg.multiXprvMapsToMultiXprv

/-- `Iterator::find_map` with a closure that can abort: first `some` answer
wins; a `none` answer moves on to the next element; an abort propagates. -/
def findMapFatal (f : Entry → FatalOr (Option PrivateKey)) (l : List Entry) :
    FatalOr (Option PrivateKey) :=
  match l with
  | [] => FatalOr.value none
  | e :: rest =>
    match f e with
    | FatalOr.fatal msg => FatalOr.fatal msg
    | FatalOr.value (some b) => FatalOr.value (some b)
    | FatalOr.value none => findMapFatal f rest

/-- `GetKey::get_key for KeyMap`: scan the stored pairs in map order with
the per-pair closure and wrap the outcome in `Ok`. -/
def KeyMap.get_key (m : KeyMap) (key_request : KeyRequest) (E : Engine) :
    FatalOr (Except GetKeyError (Option PrivateKey)) :=
  match findMapFatal (fun e => getKeyEntry E key_request e.1 e.2) m.map with
  | FatalOr.fatal msg => FatalOr.fatal msg
  | FatalOr.value o => FatalOr.value (Except.ok o)

/-- Invariant I1 of the spec: every stored pair couples matching variants
(Single↔Single, XPub↔XPrv, MultiXPub↔MultiXPrv). -/
def variantOk : DescriptorPublicKey → DescriptorSecretKey → Bool
  | DescriptorPublicKey.single _, DescriptorSecretKey.single _ => true
  | DescriptorPublicKey.xpub _, DescriptorSecretKey.xprv _ => true
  | DescriptorPublicKey.multiXpub _, DescriptorSecretKey.multiXprv _ => true
  | _, _ => false

/-- A `KeyMap` satisfying invariant I1. -/
def KeyMap.I1 (m : KeyMap) : Prop := ∀ e ∈ m.map, variantOk e.1 e.2 = true

/-- Every stored pair's public key is what the secret derives to — true of
any map populated only through `insert`. -/
def KeyMap.DerivesInv (m : KeyMap) (E : Engine) : Prop :=
  ∀ p s, (p, s) ∈ m.map → E.to_public s = Except.ok p

/-- The value the last pair of `pairs` with key `k` carries, if any. -/
def lastValue (pairs : List Entry) (k : DescriptorPublicKey) :
    Option DescriptorSecretKey :=
  match pairs with
  | [] => none
  | (k', v) :: rest =>
    match lastValue rest k with
    | some v' => some v'
    | none => if k' = k then some v else none

/-- A concrete HD-derivation function used to instantiate the abstract
engine in witnesses: derivation fails exactly on paths that contain the
step `99`, and otherwise mixes the path into the scalar. -/
def sampleDerive (x : Xpriv) (path : DerivationPath) : Option Xpriv :=
  if path.contains 99 then none
  else some { x with private_key := x.private_key * 1000 + path.foldr (fun a b => a + b) 0 }

/-- A concrete instantiation of the abstract external `Engine`, used only
to witness theorems whose hypotheses mention the engine: public keys are
tagged scalars, fingerprints are scalars mod 1000, and the combined
matching-and-derivation routine follows the spec's boundary description. -/
def sampleEngine : Engine where
  to_public := fun sk =>
    match sk with
    | DescriptorSecretKey.single s =>
      if s.key.inner = 0 then Except.error DescriptorKeyParseError.keyDerivation
      else Except.ok (DescriptorPublicKey.single
        { origin := s.origin,
          key := SinglePubKey.fullKey { compressed := s.key.compressed, inner := s.key.inner + 1000 } })
    | DescriptorSecretKey.xprv x =>
      Except.ok (DescriptorPublicKey.xpub
        { origin := x.origin,
          xkey := { network := x.xkey.network, public_key := x.xkey.private_key + 1000,
                    chain_code := x.xkey.chain_code },
          derivation_path := x.derivation_path, wildcard := x.wildcard })
    | DescriptorSecretKey.multiXprv x =>
      Except.ok (DescriptorPublicKey.multiXpub
        { origin := x.origin,
          xkey := { network := x.xkey.network, public_key := x.xkey.private_key + 1000,
                    chain_code := x.xkey.chain_code },
          derivation_paths := x.derivation_paths, wildcard := x.wildcard })
  derive_priv := sampleDerive
  fingerprint := fun x => x.private_key % 1000
  xpriv_get_key := fun x req =>
    match req with
    | KeyRequest.bip32 (fp, path) =>
      if fp = x.private_key % 1000 then
        match sampleDerive x path with
        | some child => Except.ok (some child.to_priv)
        | none => Except.ok none
      else Except.ok none
    | KeyRequest.pubkey _ => Except.error GetKeyError.notSupported

/-- A concrete `Single` public entry used in counterexamples. -/
def cPk : DescriptorPublicKey :=
  DescriptorPublicKey.single { origin := none, key := SinglePubKey.fullKey { compressed := true, inner := 5 } }

/-- A concrete `Single` secret entry. -/
def cSk1 : DescriptorSecretKey :=
  DescriptorSecretKey.single { origin := none, key := { compressed := true, network := NetworkKind.main, inner := 11 } }

/-- A second, different concrete `Single` secret entry. -/
def cSk2 : DescriptorSecretKey :=
  DescriptorSecretKey.single { origin := none, key := { compressed := true, network := NetworkKind.main, inner := 12 } }

/-- A concrete extended public key with embedded point `8`. -/
def cXpubKey : Xpub := { network := NetworkKind.main, public_key := 8, chain_code := 0 }

/-- A concrete extended private key. -/
def cXprivKey : Xpriv := { network := NetworkKind.main, private_key := 5, chain_code := 0 }

/-- A stored extended public entry whose further path `[99]` makes
`sampleDerive` fail. -/
def cXpub1 : DescriptorXKey Xpub :=
  { origin := none, xkey := cXpubKey, derivation_path := [99], wildcard := Wildcard.none }

/-- A second stored extended public entry, same embedded point, empty
further path (derivation succeeds). -/
def cXpub2 : DescriptorXKey Xpub :=
  { origin := none, xkey := cXpubKey, derivation_path := [], wildcard := Wildcard.none }

/-- The secret paired with `cXpub1`: path `[99]`, derivation fails. -/
def cXprv1 : DescriptorXKey Xpriv :=
  { origin := none, xkey := cXprivKey, derivation_path := [99], wildcard := Wildcard.none }

/-- The secret paired with `cXpub2`: empty path, derivation succeeds. -/
def cXprv2 : DescriptorXKey Xpriv :=
  { origin := none, xkey := cXprivKey, derivation_path := [], wildcard := Wildcard.none }

/-- The public key `sampleEngine` derives for `cSk1`. -/
def cPk1011 : DescriptorPublicKey :=
  DescriptorPublicKey.single { origin := none, key := SinglePubKey.fullKey { compressed := true, inner := 1011 } }

/-- The map produced by inserting `cSk1` into the empty map under
`sampleEngine`. -/
def cMap1 : KeyMap := ⟨[(cPk1011, cSk1)]⟩

/-- A malformed secret (`sampleEngine` rejects the zero scalar). -/
def cSk0 : DescriptorSecretKey :=
  DescriptorSecretKey.single { origin := none, key := { compressed := true, network := NetworkKind.main, inner := 0 } }

/-- A concrete multi-path extended public entry. -/
def cMultiXpub : DescriptorMultiXKey Xpub :=
  { origin := none, xkey := cXpubKey, derivation_paths := [[0], [1]], wildcard := Wildcard.none }

/-- A concrete multi-path extended secret entry. -/
def cMultiXprv : DescriptorMultiXKey Xpriv :=
  { origin := none, xkey := cXprivKey, derivation_paths := [[0], [1]], wildcard := Wildcard.none }

/-- Lookup after a raw `BTreeMap::insert`: the inserted key now maps to the
new value; other keys are untouched. -/
theorem btree_get_insert (m : List Entry) (k q : DescriptorPublicKey)
    (v : DescriptorSecretKey) :
    btree_get (btree_insert m k v) q = if k = q then some v else btree_get m q := by
  induction m with
  | nil =>
    by_cases hq : k = q <;> simp [btree_insert, btree_get, hq]
  | cons e rest ih =>
    obtain ⟨k', v'⟩ := e
    by_cases h : k' = k
    · subst h
      by_cases hq : k' = q <;> simp [btree_insert, btree_get, hq]
    · by_cases hq : k' = q
      · subst hq
        have : k ≠ k' := fun hk => h hk.symm
        simp [btree_insert, btree_get, h, this]
      · simp [btree_insert, btree_get, h, hq, ih]

/-- A key is absent from the association list iff lookup returns nothing. -/
theorem btree_contains_key_eq_false_iff (m : List Entry) (k : DescriptorPublicKey) :
    btree_contains_key m k = false ↔ btree_get m k = none := by
  induction m with
  | nil => simp [btree_contains_key, btree_get]
  | cons e rest ih =>
    obtain ⟨k', v'⟩ := e
    by_cases h : k' = k <;> simp [btree_contains_key, btree_get, h, ih]

/-- A present key's lookup yields some stored value. -/
theorem btree_contains_key_eq_true_get (m : List Entry) (k : DescriptorPublicKey)
    (h : btree_contains_key m k = true) : ∃ v, btree_get m k = some v := by
  induction m with
  | nil => simp [btree_contains_key] at h
  | cons e rest ih =>
    obtain ⟨k', v'⟩ := e
    by_cases hk : k' = k
    · exact ⟨v', by simp [btree_get, hk]⟩
    · simp [btree_contains_key, hk] at h
      obtain ⟨v, hv⟩ := ih h
      exact ⟨v, by simp [btree_get, hk, hv]⟩

/-- A successful lookup exhibits a stored pair. -/
theorem btree_get_mem (m : List Entry) (k : DescriptorPublicKey)
    (v : DescriptorSecretKey) (h : btree_get m k = some v) : (k, v) ∈ m := by
  induction m with
  | nil => simp [btree_get] at h
  | cons e rest ih =>
    obtain ⟨k', v'⟩ := e
    by_cases hk : k' = k
    · subst hk
      simp [btree_get] at h
      subst h
      exact List.mem_cons_self _ _
    · simp [btree_get, hk] at h
      exact List.mem_cons_of_mem _ (ih h)

/-- After a raw insert the key is present. -/
theorem btree_contains_key_insert_self (m : List Entry) (k : DescriptorPublicKey)
    (v : DescriptorSecretKey) : btree_contains_key (btree_insert m k v) k = true := by
  induction m with
  | nil => simp [btree_insert, btree_contains_key]
  | cons e rest ih =>
    obtain ⟨k', v'⟩ := e
    by_cases h : k' = k <;> simp [btree_insert, btree_contains_key, h, ih]

/-- A variant-matched pair can never hit an `unreachable!` branch of the
per-pair closure: every answer is a proper value. -/
theorem getKeyEntry_noFatal (E : Engine) (req : KeyRequest) (k : DescriptorPublicKey)
    (v : DescriptorSecretKey) (h : variantOk k v = true) :
    ∃ r, getKeyEntry E req k v = FatalOr.value r := by
  cases k with
  | single pk =>
    cases v with
    | single sk =>
      cases req with
      | pubkey request =>
        rcases hk : pk.key with pk' | x
        · by_cases he : pk' = request
          · exact ⟨some sk.key, by simp [getKeyEntry, hk, he]⟩
          · exact ⟨none, by simp [getKeyEntry, hk, he]⟩
        · exact ⟨none, by simp [getKeyEntry, hk]⟩
      | bip32 ks => exact ⟨none, rfl⟩
    | xprv x => simp [variantOk] at h
    | multiXprv x => simp [variantOk] at h
  | xpub xpub =>
    cases v with
    | single sk => simp [variantOk] at h
    | xprv xpriv =>
      cases req with
      | pubkey request =>
        by_cases he : xpub.xkey.public_key = request.inner
        · rcases hd : E.derive_priv xpriv.xkey xpriv.derivation_path with _ | child
          · exact ⟨none, by simp [getKeyEntry, he, hd]⟩
          · exact ⟨some { compressed := true, network := xpriv.xkey.network,
                          inner := child.private_key }, by simp [getKeyEntry, he, hd]⟩
        · exact ⟨none, by simp [getKeyEntry, he]⟩
      | bip32 ks =>
        rcases hg : E.xpriv_get_key xpriv.xkey (KeyRequest.bip32 ks) with e | o
        · exact ⟨none, by simp [getKeyEntry, hg]⟩
        · rcases o with _ | sk
          · exact ⟨none, by simp [getKeyEntry, hg]⟩
          · exact ⟨some sk, by simp [getKeyEntry, hg]⟩
    | multiXprv x => simp [variantOk] at h
  | multiXpub xpub =>
    cases v with
    | single sk => simp [variantOk] at h
    | xprv x => simp [variantOk] at h
    | multiXprv xpriv =>
      cases req with
      | pubkey request =>
        by_cases he : xpub.xkey.public_key = request.inner
        · exact ⟨some xpriv.xkey.to_priv, by simp [getKeyEntry, he]⟩
        · exact ⟨none, by simp [getKeyEntry, he]⟩
      | bip32 ks =>
        rcases hg : E.xpriv_get_key xpriv.xkey (KeyRequest.bip32 ks) with e | o
        · exact ⟨none, by simp [getKeyEntry, hg]⟩
        · rcases o with _ | sk
          · exact ⟨none, by simp [getKeyEntry, hg]⟩
          · exact ⟨some sk, by simp [getKeyEntry, hg]⟩

/-- Over a list of variant-matched pairs the scan never aborts. -/
theorem findMapFatal_noFatal (E : Engine) (req : KeyRequest) (l : List Entry)
    (h : ∀ e ∈ l, variantOk e.1 e.2 = true) :
    ∃ o, findMapFatal (fun e => getKeyEntry E req e.1 e.2) l = FatalOr.value o := by
  induction l with
  | nil => exact ⟨none, rfl⟩
  | cons e rest ih =>
    obtain ⟨r, hr⟩ := getKeyEntry_noFatal E req e.1 e.2 (h e (List.mem_cons_self _ _))
    rcases r with _ | b
    · obtain ⟨o, ho⟩ := ih (fun e' he' => h e' (List.mem_cons_of_mem _ he'))
      exact ⟨o, by simp [findMapFatal, hr, ho]⟩
    · exact ⟨some b, by simp [findMapFatal, hr]⟩

/-- What a successful `insert` did: it returned exactly the derived public
key, and it either left the map alone (key present) or added the new pair
(key absent). -/
theorem KeyMap.insert_ok (m : KeyMap) (E : Engine) (s : DescriptorSecretKey)
    (p : DescriptorPublicKey) (m' : KeyMap)
    (h : m.insert E s = (Except.ok p, m')) :
    E.to_public s = Except.ok p ∧
      ((btree_contains_key m.map p = true ∧ m' = m) ∨
        (btree_contains_key m.map p = false ∧ m' = ⟨btree_insert m.map p s⟩)) := by
  unfold KeyMap.insert at h
  rcases hp : E.to_public s with e | pk
  · rw [hp] at h
    simp at h
  · rw [hp] at h
    by_cases hc : btree_contains_key m.map pk = true
    · simp [hc] at h
      obtain ⟨hpk, hm⟩ := h
      subst hpk
      exact ⟨rfl, Or.inl ⟨hc, hm.symm⟩⟩
    · simp [hc] at h
      obtain ⟨hpk, hm⟩ := h
      subst hpk
      exact ⟨rfl, Or.inr ⟨Bool.eq_false_iff.mpr hc, hm.symm⟩⟩

/-- C1: a successful `insert` returns the public key `p` derived from the
inserted secret; an immediately following `get p` returns the inserted
secret whenever `p` was not previously present, and — provided every stored
pair of the starting map couples a secret with the public key it derives to
(which holds for any map populated through `insert`) — `get p` in general
returns some stored secret that derives to `p`. -/
theorem c1_round_trip (m : KeyMap) (E : Engine) (s : DescriptorSecretKey)
    (p : DescriptorPublicKey) (m' : KeyMap)
    (hins : m.insert E s = (Except.ok p, m')) :
    (m.get p = none → m'.get p = some s) ∧
      (m.DerivesInv E → ∃ s', m'.get p = some s' ∧ E.to_public s' = Except.ok p) := by
  obtain ⟨hpub, hcase⟩ := m.insert_ok E s p m' hins
  rcases hcase with ⟨hc, hm⟩ | ⟨hc, hm⟩
  · constructor
    · intro hget
      have hfalse := (btree_contains_key_eq_false_iff m.map p).mpr hget
      simp [hc] at hfalse
    · intro hinv
      obtain ⟨v, hv⟩ := btree_contains_key_eq_true_get m.map p hc
      exact ⟨v, by rw [hm]; exact hv, hinv p v (btree_get_mem _ _ _ hv)⟩
  · constructor
    · intro _
      rw [hm]
      show btree_get (btree_insert m.map p s) p = some s
      simp [btree_get_insert]
    · intro _
      refine ⟨s, ?_, hpub⟩
      rw [hm]
      show btree_get (btree_insert m.map p s) p = some s
      simp [btree_get_insert]

/-- Witness for C1 at a concrete input: inserting `cSk1` into the empty map
under `sampleEngine`. -/
theorem c1_round_trip_witness :
    (KeyMap.new.get cPk1011 = none → cMap1.get cPk1011 = some cSk1) ∧
      (KeyMap.new.DerivesInv sampleEngine →
        ∃ s', cMap1.get cPk1011 = some s' ∧ sampleEngine.to_public s' = Except.ok cPk1011) :=
  c1_round_trip KeyMap.new sampleEngine cSk1 cPk1011 cMap1 rfl

/-- C8: after a successful `insert` of `s` yielded `p`, inserting any
secret that also derives to `p` (in particular `s` itself again) is a
no-op: it still returns `p`, leaves the map — hence `len` and `get p` —
unchanged, and when `p` was absent from the starting map `get p` still
returns the originally inserted `s`. -/
theorem c8_idempotent_insert (m : KeyMap) (E : Engine) (s s2 : DescriptorSecretKey)
    (p : DescriptorPublicKey) (m1 : KeyMap)
    (h1 : m.insert E s = (Except.ok p, m1))
    (h2 : E.to_public s2 = Except.ok p) :
    m1.insert E s2 = (Except.ok p, m1) ∧
      (m1.insert E s2).2.len = m1.len ∧
      (m1.insert E s2).2.get p = m1.get p ∧
      (m.get p = none → (m1.insert E s2).2.get p = some s) := by
  obtain ⟨hpub, hcase⟩ := m.insert_ok E s p m1 h1
  have hc1 : btree_contains_key m1.map p = true := by
    rcases hcase with ⟨hc, hm⟩ | ⟨hc, hm⟩
    · rw [hm]; exact hc
    · rw [hm]; exact btree_contains_key_insert_self m.map p s
  have hins2 : m1.insert E s2 = (Except.ok p, m1) := by
    unfold KeyMap.insert
    rw [h2]
    simp [hc1]
  refine ⟨hins2, by rw [hins2], by rw [hins2], ?_⟩
  intro hget
  rw [hins2]
  rcases hcase with ⟨hc, hm⟩ | ⟨hc, hm⟩
  · have hfalse := (btree_contains_key_eq_false_iff m.map p).mpr hget
    simp [hc] at hfalse
  · rw [hm]
    show btree_get (btree_insert m.map p s) p = some s
    simp [btree_get_insert]

/-- Witness for C8: re-inserting `cSk1` into the map that already holds it. -/
theorem c8_idempotent_insert_witness :
    cMap1.insert sampleEngine cSk1 = (Except.ok cPk1011, cMap1) ∧
      (cMap1.insert sampleEngine cSk1).2.len = cMap1.len ∧
      (cMap1.insert sampleEngine cSk1).2.get cPk1011 = cMap1.get cPk1011 ∧
      (KeyMap.new.get cPk1011 = none →
        (cMap1.insert sampleEngine cSk1).2.get cPk1011 = some cSk1) :=
  c8_idempotent_insert KeyMap.new sampleEngine cSk1 cSk1 cPk1011 cMap1 rfl rfl

/-- C9: when public-key derivation fails, `insert` propagates the (sole)
key-derivation error and leaves the map exactly unchanged — same stored
pairs, hence the same iteration, `get` results, and length. -/
theorem c9_insert_failure_unchanged (m : KeyMap) (E : Engine) (s : DescriptorSecretKey)
    (e : DescriptorKeyParseError) (h : E.to_public s = Except.error e) :
    m.insert E s = (Except.error e, m) ∧
      e = DescriptorKeyParseError.keyDerivation ∧
      (m.insert E s).2.into_iter = m.into_iter ∧
      (∀ q, (m.insert E s).2.get q = m.get q) ∧
      (m.insert E s).2.len = m.len := by
  have hins : m.insert E s = (Except.error e, m) := by
    unfold KeyMap.insert
    rw [h]
  exact ⟨hins, by cases e; rfl, by rw [hins], fun q => by rw [hins], by rw [hins]⟩

/-- Witness for C9: inserting the malformed secret `cSk0` into `cMap1`. -/
theorem c9_insert_failure_unchanged_witness :
    cMap1.insert sampleEngine cSk0 = (Except.error DescriptorKeyParseError.keyDerivation, cMap1) ∧
      DescriptorKeyParseError.keyDerivation = DescriptorKeyParseError.keyDerivation ∧
      (cMap1.insert sampleEngine cSk0).2.into_iter = cMap1.into_iter ∧
      (∀ q, (cMap1.insert sampleEngine cSk0).2.get q = cMap1.get q) ∧
      (cMap1.insert sampleEngine cSk0).2.len = cMap1.len :=
  c9_insert_failure_unchanged cMap1 sampleEngine cSk0 DescriptorKeyParseError.keyDerivation rfl

/-- C2 counterexample: `extend` is not first-write-wins. Extending a map
that already stores `cSk1` under `cPk` with the single pair `(cPk, cSk2)`
overwrites the entry: `get` now returns `cSk2`, not the retained `cSk1`
the claim promises. -/
theorem c2_extend_counterexample :
    (KeyMap.extend ⟨[(cPk, cSk1)]⟩ [(cPk, cSk2)]).get cPk = some cSk2 ∧ cSk2 ≠ cSk1 :=
  ⟨rfl, by decide⟩

/-- C2 amended: `extend` applies the pairs in the input's iteration order
with last-write-wins semantics per pair — a pair whose public key is
already present (in the map or from an earlier pair of the same call)
overwrites the existing entry, so a lookup after the call sees the last
value the input supplied for that key, and the prior map entry only when
the input never mentions the key. -/
theorem c2_extend_last_write_wins (m : KeyMap) (pairs : List Entry)
    (k : DescriptorPublicKey) :
    (m.extend pairs).get k =
      match lastValue pairs k with
      | some v => some v
      | none => m.get k := by
  induction pairs generalizing m with
  | nil => rfl
  | cons e rest ih =>
    obtain ⟨k', v⟩ := e
    show (KeyMap.extend ⟨btree_insert m.map k' v⟩ rest).get k = _
    rw [ih ⟨btree_insert m.map k' v⟩]
    rcases hl : lastValue rest k with _ | v'
    · by_cases hk : k' = k
      · simp [lastValue, hl, hk, KeyMap.get, btree_get_insert]
      · simp [lastValue, hl, hk, KeyMap.get, btree_get_insert]
    · simp [lastValue, hl]

/-- C3 counterexample: the scan does continue past a structurally matching
extended-key entry whose derivation fails. The first stored pair matches
the request bytes and its derivation fails, yet `get_key` resolves the
request from the second pair instead of reporting no key found. -/
theorem c3_short_circuit_counterexample :
    getKeyEntry sampleEngine (KeyRequest.pubkey { compressed := true, inner := 8 })
        (DescriptorPublicKey.xpub cXpub1) (DescriptorSecretKey.xprv cXprv1)
      = FatalOr.value none ∧
      cXpub1.xkey.public_key = (8 : Nat) ∧
      sampleEngine.derive_priv cXprv1.xkey cXprv1.derivation_path = none ∧
      (KeyMap.mk [(DescriptorPublicKey.xpub cXpub1, DescriptorSecretKey.xprv cXprv1),
                  (DescriptorPublicKey.xpub cXpub2, DescriptorSecretKey.xprv cXprv2)]).get_key
          (KeyRequest.pubkey { compressed := true, inner := 8 }) sampleEngine
        = FatalOr.value (Except.ok
            (some { compressed := true, network := NetworkKind.main, inner := 5000 })) :=
  ⟨rfl, rfl, rfl, rfl⟩

/-- C3 amended: when a stored extended-key pair structurally matches a
by-public-key request but deriving along its stored path fails, that pair
contributes nothing and the scan continues with the remaining entries —
the request is resolved by a later entry when one matches, and reports no
key found only when none does. -/
theorem c3_scan_continues (E : Engine) (X : DescriptorXKey Xpub)
    (P : DescriptorXKey Xpriv) (rest : List Entry) (r : PublicKey)
    (hmatch : X.xkey.public_key = r.inner)
    (hfail : E.derive_priv P.xkey P.derivation_path = none) :
    (KeyMap.mk ((DescriptorPublicKey.xpub X, DescriptorSecretKey.xprv P) :: rest)).get_key
        (KeyRequest.pubkey r) E
      = (KeyMap.mk rest).get_key (KeyRequest.pubkey r) E := by
  simp [KeyMap.get_key, findMapFatal, getKeyEntry, hmatch, hfail]

/-- Witness for C3 (amended) at a concrete input: the failing entry alone,
followed by nothing, resolves like the empty map. -/
theorem c3_scan_continues_witness :
    (KeyMap.mk [(DescriptorPublicKey.xpub cXpub1, DescriptorSecretKey.xprv cXprv1)]).get_key
        (KeyRequest.pubkey { compressed := true, inner := 8 }) sampleEngine
      = (KeyMap.mk []).get_key (KeyRequest.pubkey { compressed := true, inner := 8 }) sampleEngine :=
  c3_scan_continues sampleEngine cXpub1 cXprv1 [] { compressed := true, inner := 8 } rfl rfl

/-- C6: against a by-public-key request, a stored extended-key pair matches
exactly when the request's raw point equals the extended public key's
embedded raw public key; on a match the answer is the child derived from
the stored extended private key along its stored derivation path (nothing
when derivation fails), packaged as a compressed private key carrying the
extended private key's network tag unchanged. -/
theorem c6_xpub_pubkey_policy (E : Engine) (X : DescriptorXKey Xpub)
    (P : DescriptorXKey Xpriv) (r : PublicKey) :
    (KeyMap.mk [(DescriptorPublicKey.xpub X, DescriptorSecretKey.xprv P)]).get_key
        (KeyRequest.pubkey r) E
      = FatalOr.value (Except.ok
          (if X.xkey.public_key = r.inner then
            (E.derive_priv P.xkey P.derivation_path).map
              (fun child => { compressed := true, network := P.xkey.network,
                              inner := child.private_key })
          else none)) := by
  by_cases he : X.xkey.public_key = r.inner
  · rcases hd : E.derive_priv P.xkey P.derivation_path with _ | child
    · simp [KeyMap.get_key, findMapFatal, getKeyEntry, he, hd]
    · simp [KeyMap.get_key, findMapFatal, getKeyEntry, he, hd]
  · simp [KeyMap.get_key, findMapFatal, getKeyEntry, he]

/-- C7: against a by-public-key request, a stored multi-path extended pair
matches exactly when the request's raw point equals the embedded raw
public key, and on a match returns the stored extended private key's raw
private key directly — no derivation is performed. -/
theorem c7_multixpub_pubkey_policy (E : Engine) (Y : DescriptorMultiXKey Xpub)
    (Q : DescriptorMultiXKey Xpriv) (r : PublicKey) :
    (KeyMap.mk [(DescriptorPublicKey.multiXpub Y, DescriptorSecretKey.multiXprv Q)]).get_key
        (KeyRequest.pubkey r) E
      = FatalOr.value (Except.ok
          (if Y.xkey.public_key = r.inner then some Q.xkey.to_priv else none)) := by
  by_cases he : Y.xkey.public_key = r.inner <;>
    simp [KeyMap.get_key, findMapFatal, getKeyEntry, he]

/-- C10: `extend` performs no derivation and no variant check, so it can
store a mismatched-variant pair — here a `Single` public entry paired with
an extended secret — violating invariant I1; a `get_key` request that
structurally matches that entry then hits the fatal `unreachable!` branch
instead of producing a result. -/
theorem c10_extend_breaks_invariant :
    (KeyMap.extend KeyMap.new [(cPk, DescriptorSecretKey.xprv cXprv1)]).get_key
        (KeyRequest.pubkey { compressed := true, inner := 5 }) sampleEngine
      = FatalOr.fatal FatalMsg.singleMapsToSingle ∧
      variantOk cPk (DescriptorSecretKey.xprv cXprv1) = false :=
  ⟨rfl, rfl⟩

/-- `sampleEngine` obeys the spec's boundary law for the HD engine's
combined matching-and-derivation routine. -/
theorem sampleEngine_followsHdSpec : sampleEngine.FollowsHdSpec := by
  intro x fp path child hfp hd
  have hfp' : fp = x.private_key % 1000 := hfp
  have hd' : sampleDerive x path = some child := hd
  simp [sampleEngine, hfp', hd']

/-- C4: `get_key` never returns an error value; on a map satisfying
invariant I1 it always returns `Ok` of an optional key; and each listed
no-key case resolves to `Ok(None)`: an x-only stored single key against a
by-bytes request, a by-key-source request against a stored `Single` entry
(which never matches), HD derivation failure on an otherwise-matched
extended key, and a key-source mismatch reported by the HD engine. -/
theorem c4_resolution_total (E : Engine) :
    (∀ (m : KeyMap) (req : KeyRequest) (e : GetKeyError),
      m.get_key req E ≠ FatalOr.value (Except.error e)) ∧
    (∀ (m : KeyMap) (req : KeyRequest), m.I1 →
      ∃ o, m.get_key req E = FatalOr.value (Except.ok o)) ∧
    (∀ (og : Option KeySource) (x : XOnlyPublicKey) (v : DescriptorSecretKey) (r : PublicKey),
      (KeyMap.mk [(DescriptorPublicKey.single { origin := og, key := SinglePubKey.xonly x }, v)]).get_key
          (KeyRequest.pubkey r) E
        = FatalOr.value (Except.ok none)) ∧
    (∀ (sp : SinglePub) (v : DescriptorSecretKey) (ks : KeySource),
      getKeyEntry E (KeyRequest.bip32 ks) (DescriptorPublicKey.single sp) v
        = FatalOr.value none) ∧
    (∀ (X : DescriptorXKey Xpub) (P : DescriptorXKey Xpriv) (r : PublicKey),
      E.derive_priv P.xkey P.derivation_path = none →
      (KeyMap.mk [(DescriptorPublicKey.xpub X, DescriptorSecretKey.xprv P)]).get_key
          (KeyRequest.pubkey r) E
        = FatalOr.value (Except.ok none)) ∧
    (∀ (X : DescriptorXKey Xpub) (P : DescriptorXKey Xpriv) (ks : KeySource),
      E.xpriv_get_key P.xkey (KeyRequest.bip32 ks) = Except.ok none →
      (KeyMap.mk [(DescriptorPublicKey.xpub X, DescriptorSecretKey.xprv P)]).get_key
          (KeyRequest.bip32 ks) E
        = FatalOr.value (Except.ok none)) := by
  refine ⟨?_, ?_, ?_, ?_, ?_, ?_⟩
  · intro m req e
    unfold KeyMap.get_key
    rcases h : findMapFatal (fun p => getKeyEntry E req p.1 p.2) m.map with msg | o <;> simp
  · intro m req hI1
    obtain ⟨o, ho⟩ := findMapFatal_noFatal E req m.map hI1
    exact ⟨o, by unfold KeyMap.get_key; rw [ho]⟩
  · intro og x v r
    rfl
  · intro sp v ks
    rfl
  · intro X P r hfail
    by_cases he : X.xkey.public_key = r.inner <;>
      simp [KeyMap.get_key, findMapFatal, getKeyEntry, he, hfail]
  · intro X P ks hg
    simp [KeyMap.get_key, findMapFatal, getKeyEntry, hg]

/-- Witness for C4: the I1-totality conjunct on the concrete `cMap1`, and
the derivation-failure conjunct on the concrete failing entry. -/
theorem c4_resolution_total_witness :
    (∃ o, cMap1.get_key (KeyRequest.pubkey { compressed := true, inner := 1011 }) sampleEngine
        = FatalOr.value (Except.ok o)) ∧
      (KeyMap.mk [(DescriptorPublicKey.xpub cXpub1, DescriptorSecretKey.xprv cXprv1)]).get_key
          (KeyRequest.pubkey { compressed := true, inner := 8 }) sampleEngine
        = FatalOr.value (Except.ok none) :=
  ⟨(c4_resolution_total sampleEngine).2.1 cMap1
      (KeyRequest.pubkey { compressed := true, inner := 1011 })
      (by intro e he; simp [cMap1] at he; subst he; rfl),
   (c4_resolution_total sampleEngine).2.2.2.2.1 cXpub1 cXprv1
      { compressed := true, inner := 8 } rfl⟩

/-- C5: on a by-key-source request against a stored extended (or
multi-path extended) pair, `get_key` delegates to the external HD engine's
combined matching-and-derivation routine, passing the stored extended
private key and the request, and surfaces exactly its result (an engine
error or non-match becoming "no key"); consequently, when the stored key
is a master whose fingerprint the request names and the engine follows the
spec's boundary law, resolving `(F, D)` returns precisely the child
privately derived along `D` from that master. -/
theorem c5_bip32_delegation (E : Engine) (X : DescriptorXKey Xpub)
    (P : DescriptorXKey Xpriv) (Y : DescriptorMultiXKey Xpub)
    (Q : DescriptorMultiXKey Xpriv) (F : Fingerprint) (D : DerivationPath)
    (child : Xpriv)
    (hlaw : E.FollowsHdSpec)
    (hfp : F = E.fingerprint P.xkey)
    (hder : E.derive_priv P.xkey D = some child) :
    (∀ ks : KeySource,
      (KeyMap.mk [(DescriptorPublicKey.xpub X, DescriptorSecretKey.xprv P)]).get_key
          (KeyRequest.bip32 ks) E
        = FatalOr.value (Except.ok
            (match E.xpriv_get_key P.xkey (KeyRequest.bip32 ks) with
             | Except.ok (some sk) => some sk
             | _ => none))) ∧
    (∀ ks : KeySource,
      (KeyMap.mk [(DescriptorPublicKey.multiXpub Y, DescriptorSecretKey.multiXprv Q)]).get_key
          (KeyRequest.bip32 ks) E
        = FatalOr.value (Except.ok
            (match E.xpriv_get_key Q.xkey (KeyRequest.bip32 ks) with
             | Except.ok (some sk) => some sk
             | _ => none))) ∧
    (KeyMap.mk [(DescriptorPublicKey.xpub X, DescriptorSecretKey.xprv P)]).get_key
        (KeyRequest.bip32 (F, D)) E
      = FatalOr.value (Except.ok (some child.to_priv)) := by
  refine ⟨?_, ?_, ?_⟩
  · intro ks
    rcases hg : E.xpriv_get_key P.xkey (KeyRequest.bip32 ks) with e | o
    · simp [KeyMap.get_key, findMapFatal, getKeyEntry, hg]
    · rcases o with _ | sk <;> simp [KeyMap.get_key, findMapFatal, getKeyEntry, hg]
  · intro ks
    rcases hg : E.xpriv_get_key Q.xkey (KeyRequest.bip32 ks) with e | o
    · simp [KeyMap.get_key, findMapFatal, getKeyEntry, hg]
    · rcases o with _ | sk <;> simp [KeyMap.get_key, findMapFatal, getKeyEntry, hg]
  · have hg := hlaw P.xkey F D child hfp hder
    simp [KeyMap.get_key, findMapFatal, getKeyEntry, hg]

/-- Witness for C5 at a concrete input: `cXprv2` stores the master
directly; the request names its fingerprint `5` and asks for path
`[2, 3]`, whose direct derivation is the scalar `5005`. -/
theorem c5_bip32_delegation_witness :
    (∀ ks : KeySource,
      (KeyMap.mk [(DescriptorPublicKey.xpub cXpub2, DescriptorSecretKey.xprv cXprv2)]).get_key
          (KeyRequest.bip32 ks) sampleEngine
        = FatalOr.value (Except.ok
            (match sampleEngine.xpriv_get_key cXprv2.xkey (KeyRequest.bip32 ks) with
             | Except.ok (some sk) => some sk
             | _ => none))) ∧
    (∀ ks : KeySource,
      (KeyMap.mk [(DescriptorPublicKey.multiXpub cMultiXpub, DescriptorSecretKey.multiXprv cMultiXprv)]).get_key
          (KeyRequest.bip32 ks) sampleEngine
        = FatalOr.value (Except.ok
            (match sampleEngine.xpriv_get_key cMultiXprv.xkey (KeyRequest.bip32 ks) with
             | Except.ok (some sk) => some sk
             | _ => none))) ∧
    (KeyMap.mk [(DescriptorPublicKey.xpub cXpub2, DescriptorSecretKey.xprv cXprv2)]).get_key
        (KeyRequest.bip32 (5, [2, 3])) sampleEngine
      = FatalOr.value (Except.ok
          (some (Xpriv.to_priv { network := NetworkKind.main, private_key := 5005, chain_code := 0 }))) :=
  c5_bip32_delegation sampleEngine cXpub2 cXprv2 cMultiXpub cMultiXprv 5 [2, 3]
    { network := NetworkKind.main, private_key := 5005, chain_code := 0 }
    sampleEngine_followsHdSpec rfl rfl
